import Mathlib

/-!
Verification of the Ai-Shot selection-and-streaming core.

This file gives a shallow embedding, in Lean 4, of the control logic of the
Ai-Shot screenshot tool (crates/core): the UI-space to image-space coordinate
mapper (`image_processing.rs`), the selection gesture handling
(`ui/selection.rs`), the UI state machine and stream-event drain
(`ui/state.rs`, `ui/snipping_tool.rs`), and the background worker's
event-emission behaviour (`ui/snipping_tool.rs`).

Modelling conventions:
* Rust `f32` coordinates are modelled by exact rationals (`ℚ`); every concrete
  input used in the theorems below is exactly representable in `f32` and all
  arithmetic on those inputs is exact in `f32`, so the rational model agrees
  with the compiled code there.
* The Rust cast `as u32` on an `f32` saturates into `[0, 2^32-1]` and
  truncates toward zero; `ratAsU32` mirrors that.  `u32` addition is modelled
  with an explicit `% 2^32` (release-profile wrapping semantics) at the one
  place it occurs (`x + width > original.width()`), where overflow matters.
* Channels are modelled as FIFO lists of events; draining is a left fold.
* External collaborators (JPEG encoder, network stream) enter as parameters
  or as `Except`-valued outcomes, exactly at the call sites the source has.
-/

namespace AiShot

/-- A 2D point with rational coordinates, modelling `egui::Pos2` (f32 fields). -/
structure Pos2 where
  x : ℚ
  y : ℚ
deriving DecidableEq, Repr

/-- A 2D vector, modelling `egui::Vec2` (used for the UI size). -/
structure Vec2 where
  x : ℚ
  y : ℚ
deriving DecidableEq, Repr

/-- An axis-aligned rectangle, modelling `egui::Rect` with `min`/`max` corners. -/
structure Rect where
  min : Pos2
  max : Pos2
deriving DecidableEq, Repr

/-- `egui::Rect::width`: `max.x - min.x`. -/
def Rect.width (r : Rect) : ℚ := r.max.x - r.min.x

/-- `egui::Rect::height`: `max.y - min.y`. -/
def Rect.height (r : Rect) : ℚ := r.max.y - r.min.y

/-- Largest `u32` value, `2^32 - 1`. -/
def U32_MAX : ℕ := 4294967295

/-- The Rust cast `as u32` applied to a (real-valued) `f32`, on the rational
model: truncation toward zero, saturating into `[0, U32_MAX]`. -/
def ratAsU32 (q : ℚ) : ℕ :=
  if q ≤ 0 then 0 else min (Rat.floor q).toNat U32_MAX

/-- The variants of `error.rs`'s `AppError` reachable from the mapper
(`EmptySelection` for degenerate selections, `ImageProcessing` for JPEG
encoding failures). -/
inductive AppError where
  | EmptySelection
  | ImageProcessing (msg : String)
deriving DecidableEq, Repr

/-- The pixel-space rectangle handed to `crop_imm`: the values `x`, `y`,
`width`, `height` computed by `ImageProcessor::process_selection` (all `u32`). -/
structure PixelRect where
  x : ℕ
  y : ℕ
  width : ℕ
  height : ℕ
deriving DecidableEq, Repr

/-- `let scale_x = original.width() as f32 / ui_size.x` (image_processing.rs:62). -/
def scaleX (imgW : ℕ) (ui_size : Vec2) : ℚ := (imgW : ℚ) / ui_size.x

/-- `let scale_y = original.height() as f32 / ui_size.y` (image_processing.rs:63). -/
def scaleY (imgH : ℕ) (ui_size : Vec2) : ℚ := (imgH : ℚ) / ui_size.y

/-- `let x = (selection.min.x * scale_x).max(0.0) as u32` (image_processing.rs:66). -/
def pixelX (imgW : ℕ) (selection : Rect) (ui_size : Vec2) : ℕ :=
  ratAsU32 (max (selection.min.x * scaleX imgW ui_size) 0)

/-- `let y = (selection.min.y * scale_y).max(0.0) as u32` (image_processing.rs:67). -/
def pixelY (imgH : ℕ) (selection : Rect) (ui_size : Vec2) : ℕ :=
  ratAsU32 (max (selection.min.y * scaleY imgH ui_size) 0)

/-- `let mut width = (selection.width() * scale_x) as u32` (image_processing.rs:70). -/
def rawWidth (imgW : ℕ) (selection : Rect) (ui_size : Vec2) : ℕ :=
  ratAsU32 (selection.width * scaleX imgW ui_size)

/-- `let mut height = (selection.height() * scale_y) as u32` (image_processing.rs:71). -/
def rawHeight (imgH : ℕ) (selection : Rect) (ui_size : Vec2) : ℕ :=
  ratAsU32 (selection.height * scaleY imgH ui_size)

/-- `if x + width > original.width() { width = original.width().saturating_sub(x) }`
(image_processing.rs:74-76).  The `u32` sum `x + width` is taken `% 2^32`
(wrapping semantics); `ℕ` subtraction is exactly `saturating_sub`. -/
def clampedWidth (imgW : ℕ) (selection : Rect) (ui_size : Vec2) : ℕ :=
  if (pixelX imgW selection ui_size + rawWidth imgW selection ui_size) % 2 ^ 32 > imgW then
    imgW - pixelX imgW selection ui_size
  else
    rawWidth imgW selection ui_size

/-- `if y + height > original.height() { height = original.height().saturating_sub(y) }`
(image_processing.rs:77-79). -/
def clampedHeight (imgH : ℕ) (selection : Rect) (ui_size : Vec2) : ℕ :=
  if (pixelY imgH selection ui_size + rawHeight imgH selection ui_size) % 2 ^ 32 > imgH then
    imgH - pixelY imgH selection ui_size
  else
    rawHeight imgH selection ui_size

/-- The coordinate-mapping stage of `ImageProcessor::process_selection`
(image_processing.rs:56-87): scale, clamp, and reject empty results.  Returns
the pixel rectangle passed to `crop_imm` or `AppError::EmptySelection`. -/
def process_selection_rect (imgW imgH : ℕ) (selection : Rect) (ui_size : Vec2) :
    Except AppError PixelRect :=
  if clampedWidth imgW selection ui_size = 0 ∨ clampedHeight imgH selection ui_size = 0 then
    .error .EmptySelection
  else
    .ok ⟨pixelX imgW selection ui_size, pixelY imgH selection ui_size,
         clampedWidth imgW selection ui_size, clampedHeight imgH selection ui_size⟩

/-- The full `ImageProcessor::process_selection` pipeline
(image_processing.rs:56-93): coordinate mapping, then crop-and-encode.  The
external JPEG encoder (`encode_to_base64_jpeg`, acting on the cropped image)
is a parameter; its failure is wrapped as `AppError::ImageProcessing` exactly
as `AppError::image(format!("Failed to encode image: {}", e))` does. -/
def process_selection (imgW imgH : ℕ) (selection : Rect) (ui_size : Vec2)
    (encode : PixelRect → Except String String) : Except AppError String :=
  match process_selection_rect imgW imgH selection ui_size with
  | .error e => .error e
  | .ok rect =>
      match encode rect with
      | .error e => .error (.ImageProcessing ("Failed to encode image: " ++ e))
      | .ok s => .ok s

/-! ### Selection gesture handling (`ui/selection.rs`) -/

/-- `pub const MIN_SELECTION_DISTANCE: f32 = 10.0` (selection.rs:9). -/
def MIN_SELECTION_DISTANCE : ℚ := 10

/-- `is_valid_selection` (selection.rs:46-48): `start.distance(end) > MIN_SELECTION_DISTANCE`.
Since both sides of the comparison are nonnegative, `√(dx² + dy²) > 10` is
compared with both sides squared, keeping the test decidable; the lemma
`is_valid_selection_iff_dist` below recovers the square-root form verbatim. -/
def is_valid_selection (start e : Pos2) : Bool :=
  MIN_SELECTION_DISTANCE ^ 2 < (e.x - start.x) ^ 2 + (e.y - start.y) ^ 2

/-- `SelectionEvent` (selection.rs:64-76). -/
inductive SelectionEvent where
  | Started
  | Dragging
  | Completed
  | Cancelled
  | None
deriving DecidableEq, Repr

/-- The fields of the `egui::Response` consulted by `process_drag_event`:
the three drag flags and `interact_pointer_pos()`. -/
structure DragResponse where
  drag_started : Bool
  dragged : Bool
  drag_stopped : Bool
  interact_pointer_pos : Option Pos2
deriving DecidableEq, Repr

/-- The two `&mut Option<egui::Pos2>` arguments of `process_drag_event`
(`selection_start` and `current_pos` of the tool). -/
structure DragState where
  start : Option Pos2
  current : Option Pos2
deriving DecidableEq, Repr

/-- `process_drag_event` (selection.rs:85-115).  The Rust function mutates
`start`/`current` in place and returns a `SelectionEvent`; here it returns the
event together with the updated pair. -/
def process_drag_event (response : DragResponse) (s : DragState) (is_finalized : Bool) :
    SelectionEvent × DragState :=
  if response.drag_started then
    (.Started, ⟨response.interact_pointer_pos, response.interact_pointer_pos⟩)
  else if response.dragged then
    (.Dragging, ⟨s.start, response.interact_pointer_pos⟩)
  else if response.drag_stopped && !is_finalized then
    match s.start, s.current with
    | some st, some en =>
        if is_valid_selection st en then (.Completed, s)
        else (.Cancelled, ⟨none, none⟩)
    | _, _ => (SelectionEvent.None, s)
  else
    (SelectionEvent.None, s)

/-! ### UI state machine and stream events (`ui/state.rs`) -/

/-- `UiState` (state.rs:27-41).  `Response` is the spec's `Streaming` state. -/
inductive UiState where
  | Idle
  | Loading
  | Response (text : String) (thoughts : String)
  | Error (msg : String)
deriving DecidableEq, Repr

/-- `StreamEvent` (state.rs:47-56).  Note: the variants carry no generation
tag of any kind — only the payload strings. -/
inductive StreamEvent where
  | Chunk (text : String)
  | Thought (thought : String)
  | Error (err : String)
  | Done
deriving DecidableEq, Repr

/-- Whether the state is `UiState::Response { .. }`. -/
def UiState.isResponse : UiState → Bool
  | .Response _ _ => true
  | _ => false

/-- `matches!(self.state, UiState::Response { .. } | UiState::Error(_))`
(snipping_tool.rs:457). -/
def UiState.isResponseOrError : UiState → Bool
  | .Response _ _ => true
  | .Error _ => true
  | _ => false

/-- `matches!(self.state, UiState::Loading)` (snipping_tool.rs:443). -/
def UiState.isLoading : UiState → Bool
  | .Loading => true
  | _ => false

/-! ### Draining the event bus (`SnippingTool::process_stream_events`) -/

/-- The body of the `match event` in `process_stream_events`
(snipping_tool.rs:227-260): how one received event transforms `self.state`.
`ctx.request_repaint()` is presentation-only and not modelled. -/
def process_stream_event (state : UiState) (event : StreamEvent) : UiState :=
  match event with
  | .Chunk text =>
      match state with
      | .Response current_text thoughts => .Response (current_text ++ text) thoughts
      | _ => .Response text ""
  | .Thought thought =>
      match state with
      | .Response text thoughts => .Response text (thoughts ++ thought)
      | _ => .Response "" thought
  | .Error err => .Error err
  | .Done => state

/-- `process_stream_events` (snipping_tool.rs:225-262): the
`while let Ok(event) = self.rx.try_recv()` loop, draining the FIFO channel
contents in order. -/
def process_stream_events (state : UiState) (events : List StreamEvent) : UiState :=
  events.foldl process_stream_event state

/-! ### The snipping tool's per-frame selection handling (`SnippingTool::update`) -/

/-- The fields of `SnippingTool` that the modelled control logic touches
(snipping_tool.rs:25-54): selection geometry, finalized flag, prompt text,
and the presentation state. -/
structure ToolState where
  selection_start : Option Pos2
  current_pos : Option Pos2
  is_selection_finalized : Bool
  chat_input : String
  state : UiState
deriving DecidableEq, Repr

/-- The selection-input block of `SnippingTool::update`
(snipping_tool.rs:442-466): skipped when the state is `Loading`; otherwise
runs `process_drag_event` and reacts to `Started` (clear finalized flag and
prompt, reset a `Response`/`Error` state to `Idle`) and `Completed` (set the
finalized flag). -/
def handle_selection_input (t : ToolState) (response : DragResponse) : ToolState :=
  if t.state.isLoading then t
  else
    let evds := process_drag_event response ⟨t.selection_start, t.current_pos⟩
      t.is_selection_finalized
    let t1 : ToolState :=
      { t with selection_start := evds.2.start, current_pos := evds.2.current }
    match evds.1 with
    | .Started =>
        { t1 with is_selection_finalized := false, chat_input := "",
                  state := if t1.state.isResponseOrError then .Idle else t1.state }
    | .Completed => { t1 with is_selection_finalized := true }
    | _ => t1

/-- One frame of `SnippingTool::update` restricted to the modelled logic
(snipping_tool.rs:404-466): first `process_stream_events` drains every event
pending on the bus, then the selection input is handled. -/
def frame_update (t : ToolState) (pending : List StreamEvent) (response : DragResponse) :
    ToolState :=
  handle_selection_input { t with state := process_stream_events t.state pending } response

/-! ### Request submission (`SnippingTool::submit_request`, snipping_tool.rs:102-122) -/

/-- The externally visible actions `submit_request` performs on the UI thread,
in order: the `self.settings.save()` attempt, the `eprintln!` warning on a
save failure, and the `thread::spawn` hand-off. -/
inductive SubmitAction where
  | saveSettings
  | logWarning (msg : String)
  | spawnWorker
deriving DecidableEq, Repr

/-- `SnippingTool::submit_request`, UI-thread part (snipping_tool.rs:102-122):
save settings (failure only logged), set `self.state` to an empty `Response`,
spawn the worker thread.  `saveResult` is the outcome of `Settings::save`
(settings.rs:78-84).  Returns the new `self.state` and the ordered action
trace. -/
def submit_request (saveResult : Except String Unit) : UiState × List SubmitAction :=
  let saveActions : List SubmitAction :=
    match saveResult with
    | .error e => [.saveSettings, .logWarning ("Warning: Failed to save settings: " ++ e)]
    | .ok _ => [.saveSettings]
  (UiState.Response "" "", saveActions ++ [.spawnWorker])

/-! ### The background worker (`submit_request`'s spawned thread) -/

/-- `GeminiStreamEvent` (gemini.rs:71-76). -/
inductive GeminiStreamEvent where
  | Text (s : String)
  | Thought (s : String)
deriving DecidableEq, Repr

/-- How the worker turns one item of the Gemini stream into channel sends
(snipping_tool.rs:183-203): an `Ok` vector of events maps to `Chunk`/`Thought`
sends, an `Err` maps to a single `Error` send — after which the
`while let` loop CONTINUES with the next stream item. -/
def streamItemEvents : Except String (List GeminiStreamEvent) → List StreamEvent
  | .ok events =>
      events.map fun ev =>
        match ev with
        | .Text text => StreamEvent.Chunk text
        | .Thought thought => StreamEvent.Thought thought
  | .error e => [StreamEvent.Error ("Stream error: " ++ e)]

/-- The full event sequence the spawned worker sends over the channel
(snipping_tool.rs:118-221), as a function of the outcomes of its fallible
stages: tokio runtime construction, `ImageProcessor::process_selection`,
`Config::builder().build()`, `GeminiClient::new`, and
`analyze_image_stream` (whose success carries the list of stream items).
Each early failure sends one `Error` and returns; a successful stream sends
the per-item events followed by `Done`. -/
def worker_events (runtime : Except String Unit) (img : Except String String)
    (task_config : Except String Unit) (client : Except String Unit)
    (stream : Except String (List (Except String (List GeminiStreamEvent)))) :
    List StreamEvent :=
  match runtime with
  | .error e => [StreamEvent.Error ("Failed to create async runtime: " ++ e)]
  | .ok _ =>
    match img with
    | .error e => [StreamEvent.Error ("Image processing failed: " ++ e)]
    | .ok _ =>
      match task_config with
      | .error e => [StreamEvent.Error ("Configuration error: " ++ e)]
      | .ok _ =>
        match client with
        | .error e => [StreamEvent.Error ("Client initialization failed: " ++ e)]
        | .ok _ =>
          match stream with
          | .error e => [StreamEvent.Error ("Gemini API error: " ++ e)]
          | .ok results => (results.flatMap streamItemEvents) ++ [StreamEvent.Done]

/-! ### Helper notions and lemmas about the drain -/

/-- The texts of the `Chunk` events of a list, in order. -/
def chunkTexts (events : List StreamEvent) : List String :=
  events.filterMap fun e =>
    match e with
    | .Chunk s => some s
    | _ => none

/-- The texts of the `Thought` events of a list, in order. -/
def thoughtTexts (events : List StreamEvent) : List String :=
  events.filterMap fun e =>
    match e with
    | .Thought s => some s
    | _ => none

/-- Whether an event is the `Error` variant. -/
def StreamEvent.isError : StreamEvent → Bool
  | .Error _ => true
  | _ => false

/-- The displayed response text of a state (empty off the `Response` state). -/
def UiState.textOf : UiState → String
  | .Response t _ => t
  | _ => ""

/-- The displayed thoughts of a state (empty off the `Response` state). -/
def UiState.thoughtsOf : UiState → String
  | .Response _ th => th
  | _ => ""

lemma string_foldl_eq (l : List String) (t : String) :
    l.foldl (fun r s => r ++ s) t = t ++ String.join l := by
  induction l generalizing t with
  | nil => simp [String.join]
  | cons a l ih =>
      simp only [String.join, List.foldl_cons] at *
      rw [ih (t ++ a), ih ("" ++ a), String.empty_append, String.append_assoc]

lemma string_join_cons (a : String) (l : List String) :
    String.join (a :: l) = a ++ String.join l := by
  show List.foldl (fun r s => r ++ s) "" (a :: l) = a ++ String.join l
  simp only [List.foldl_cons]
  rw [string_foldl_eq l ("" ++ a), String.empty_append]

lemma chunkTexts_cons_chunk (s : String) (events : List StreamEvent) :
    chunkTexts (StreamEvent.Chunk s :: events) = s :: chunkTexts events := rfl

lemma chunkTexts_cons_thought (s : String) (events : List StreamEvent) :
    chunkTexts (StreamEvent.Thought s :: events) = chunkTexts events := rfl

lemma chunkTexts_cons_done (events : List StreamEvent) :
    chunkTexts (StreamEvent.Done :: events) = chunkTexts events := rfl

lemma thoughtTexts_cons_chunk (s : String) (events : List StreamEvent) :
    thoughtTexts (StreamEvent.Chunk s :: events) = thoughtTexts events := rfl

lemma thoughtTexts_cons_thought (s : String) (events : List StreamEvent) :
    thoughtTexts (StreamEvent.Thought s :: events) = s :: thoughtTexts events := rfl

lemma thoughtTexts_cons_done (events : List StreamEvent) :
    thoughtTexts (StreamEvent.Done :: events) = thoughtTexts events := rfl

lemma chunkTexts_map_chunk (l : List String) : chunkTexts (l.map StreamEvent.Chunk) = l := by
  induction l with
  | nil => rfl
  | cons a l ih => rw [List.map_cons, chunkTexts_cons_chunk, ih]

lemma thoughtTexts_map_chunk (l : List String) :
    thoughtTexts (l.map StreamEvent.Chunk) = [] := by
  induction l with
  | nil => rfl
  | cons a l ih => rw [List.map_cons, thoughtTexts_cons_chunk, ih]

/-- Draining a list of non-`Error` events from a `Response` state appends the
chunk texts, in order, to `text` and the thought texts, in order, to
`thoughts`. -/
lemma drain_content (events : List StreamEvent) (t th : String)
    (h : ∀ e ∈ events, e.isError = false) :
    process_stream_events (UiState.Response t th) events =
      UiState.Response (t ++ String.join (chunkTexts events))
        (th ++ String.join (thoughtTexts events)) := by
  induction events generalizing t th with
  | nil => simp [process_stream_events, chunkTexts, thoughtTexts, String.join]
  | cons e events ih =>
      have he : e.isError = false := h e (List.mem_cons_self e events)
      have hrest : ∀ x ∈ events, x.isError = false := fun x hx => h x (List.mem_cons_of_mem e hx)
      cases e with
      | Chunk s =>
          have step : process_stream_events (UiState.Response t th)
                (StreamEvent.Chunk s :: events) =
              process_stream_events (UiState.Response (t ++ s) th) events := rfl
          rw [step, ih (t ++ s) th hrest, chunkTexts_cons_chunk, thoughtTexts_cons_chunk,
            string_join_cons, String.append_assoc]
      | Thought s =>
          have step : process_stream_events (UiState.Response t th)
                (StreamEvent.Thought s :: events) =
              process_stream_events (UiState.Response t (th ++ s)) events := rfl
          rw [step, ih t (th ++ s) hrest, chunkTexts_cons_thought, thoughtTexts_cons_thought,
            string_join_cons, String.append_assoc]
      | Error msg => simp [StreamEvent.isError] at he
      | Done =>
          have step : process_stream_events (UiState.Response t th)
                (StreamEvent.Done :: events) =
              process_stream_events (UiState.Response t th) events := rfl
          rw [step, ih t th hrest, chunkTexts_cons_done, thoughtTexts_cons_done]

/-- C3: Append-only accumulation: on the `Response` (Streaming) state a
`Chunk` appends to `text` leaving `thoughts` unchanged and a `Thought`
appends to `thoughts` leaving `text` unchanged; no non-`Error` event ever
shrinks either field; draining any `Error`-free event list from a `Response`
state appends the chunk texts, in order, to `text` and the thought texts, in
order, to `thoughts`; and the event sequence
`Chunk "Hello", Thought "A", Chunk " ", Thought "B", Chunk "world"` drained
from the empty `Response` state yields text `"Hello world"` and thoughts
`"AB"`. -/
theorem stream_accumulation_append_only :
    (∀ t th c, process_stream_event (UiState.Response t th) (StreamEvent.Chunk c) =
      UiState.Response (t ++ c) th) ∧
    (∀ t th c, process_stream_event (UiState.Response t th) (StreamEvent.Thought c) =
      UiState.Response t (th ++ c)) ∧
    (∀ s e, e.isError = false →
      (UiState.textOf s).length ≤ (UiState.textOf (process_stream_event s e)).length ∧
      (UiState.thoughtsOf s).length ≤ (UiState.thoughtsOf (process_stream_event s e)).length) ∧
    (∀ t th events, (∀ e ∈ events, e.isError = false) →
      process_stream_events (UiState.Response t th) events =
        UiState.Response (t ++ String.join (chunkTexts events))
          (th ++ String.join (thoughtTexts events))) ∧
    process_stream_events (UiState.Response "" "")
        [StreamEvent.Chunk "Hello", StreamEvent.Thought "A", StreamEvent.Chunk " ",
         StreamEvent.Thought "B", StreamEvent.Chunk "world"] =
      UiState.Response "Hello world" "AB" := by
  refine ⟨fun t th c => rfl, fun t th c => rfl, ?_,
    fun t th events hev => drain_content events t th hev, by decide⟩
  intro s e he
  cases e with
  | Chunk c => cases s <;> simp [process_stream_event, UiState.textOf, UiState.thoughtsOf,
      String.length_append]
  | Thought c => cases s <;> simp [process_stream_event, UiState.textOf, UiState.thoughtsOf,
      String.length_append]
  | Error msg => simp [StreamEvent.isError] at he
  | Done => cases s <;> simp [process_stream_event]

/-- Witness for `stream_accumulation_append_only`: its hypotheses discharged
at concrete inputs. -/
theorem stream_accumulation_append_only_witness :
    process_stream_events (UiState.Response "a" "b")
        [StreamEvent.Chunk "x", StreamEvent.Thought "y"] =
      UiState.Response ("a" ++ String.join ["x"]) ("b" ++ String.join ["y"]) ∧
    (UiState.textOf (UiState.Response "a" "b")).length ≤
      (UiState.textOf (process_stream_event (UiState.Response "a" "b")
        (StreamEvent.Chunk "x"))).length :=
  ⟨stream_accumulation_append_only.2.2.2.1 "a" "b" _ (by decide),
   (stream_accumulation_append_only.2.2.1 (UiState.Response "a" "b")
     (StreamEvent.Chunk "x") (by decide)).1⟩

/-- C10: Draining a `Chunk` (resp. `Thought`) while the state is not
`Response` replaces the state with a fresh `Response` whose `text` (resp.
`thoughts`) is exactly that single chunk and whose other field is empty. -/
theorem content_event_replaces_non_response (s : UiState) (c : String)
    (h : s.isResponse = false) :
    process_stream_event s (StreamEvent.Chunk c) = UiState.Response c "" ∧
    process_stream_event s (StreamEvent.Thought c) = UiState.Response "" c := by
  cases s <;> simp_all [process_stream_event, UiState.isResponse]

/-- Witness for `content_event_replaces_non_response`: the `Error` state is
overwritten by a late chunk. -/
theorem content_event_replaces_non_response_witness :
    process_stream_event (UiState.Error "boom") (StreamEvent.Chunk "late") =
      UiState.Response "late" "" ∧
    process_stream_event (UiState.Error "boom") (StreamEvent.Thought "late") =
      UiState.Response "" "late" :=
  content_event_replaces_non_response (UiState.Error "boom") "late" (by decide)

/-- C1 counterexample: `StreamEvent`s carry no generation tag
(state.rs:47-56), and `process_stream_events` applies every drained event to
the current state.  Concretely: after a second submission resets the state to
`Response "" ""` (snipping_tool.rs:108-111), a late chunk `"G1-late"` from the
first submission's still-running worker sitting on the bus ahead of the second
worker's chunk `"G2"` is appended to the displayed text, which therefore is
NOT the concatenation of the second submission's chunks alone. -/
theorem stale_events_not_discarded_cex :
    process_stream_events (UiState.Response "" "")
        [StreamEvent.Chunk "G1-late", StreamEvent.Chunk "G2"] =
      UiState.Response "G1-lateG2" "" ∧
    "G1-lateG2" ≠ "G2" := by
  refine ⟨by decide, by decide⟩

/-- C1 amended: there is no generation mechanism; draining applies every
received chunk to the current state regardless of which submission's worker
sent it, so after two submissions the displayed `Response` text is the
concatenation of ALL drained chunks — the first worker's late chunks followed
by the second worker's chunks — in arrival order. -/
theorem drain_applies_all_chunks (lateChunks freshChunks : List String) :
    process_stream_events (UiState.Response "" "")
        (lateChunks.map StreamEvent.Chunk ++ freshChunks.map StreamEvent.Chunk) =
      UiState.Response (String.join (lateChunks ++ freshChunks)) "" := by
  have h : ∀ e ∈ (lateChunks.map StreamEvent.Chunk ++ freshChunks.map StreamEvent.Chunk),
      e.isError = false := by
    intro e he
    rcases List.mem_append.1 he with h' | h' <;>
      · rcases List.mem_map.1 h' with ⟨s, _, rfl⟩
        rfl
  rw [drain_content _ "" "" h]
  have hc : chunkTexts (lateChunks.map StreamEvent.Chunk ++ freshChunks.map StreamEvent.Chunk) =
      lateChunks ++ freshChunks := by
    rw [chunkTexts, List.filterMap_append, ← chunkTexts, ← chunkTexts,
      chunkTexts_map_chunk, chunkTexts_map_chunk]
  have ht : thoughtTexts (lateChunks.map StreamEvent.Chunk ++ freshChunks.map StreamEvent.Chunk) =
      ([] : List String) := by
    rw [thoughtTexts, List.filterMap_append, ← thoughtTexts, ← thoughtTexts,
      thoughtTexts_map_chunk, thoughtTexts_map_chunk]
    rfl
  rw [hc, ht]
  rw [show String.join ([] : List String) = "" from rfl, String.append_empty,
    String.empty_append]

/-! ### Gesture finalization (C7) -/

/-- The squared comparison in `is_valid_selection` is exactly the source's
`start.distance(end) > MIN_SELECTION_DISTANCE` with the Euclidean distance
written out. -/
lemma is_valid_selection_iff_dist (st en : Pos2) :
    is_valid_selection st en = true ↔
      ((MIN_SELECTION_DISTANCE : ℚ) : ℝ) <
        Real.sqrt (((en.x - st.x) ^ 2 + (en.y - st.y) ^ 2 : ℚ) : ℝ) := by
  rw [is_valid_selection, decide_eq_true_eq]
  constructor
  · intro h
    rw [Real.lt_sqrt (by norm_num [MIN_SELECTION_DISTANCE])]
    exact_mod_cast h
  · intro h
    rw [Real.lt_sqrt (by norm_num [MIN_SELECTION_DISTANCE])] at h
    exact_mod_cast h

/-- C7: on a drag-end event (`drag_stopped`, not a start or move) while not
finalized and with both geometry endpoints present, the result is `Completed`
(keeping the geometry) exactly when the Euclidean distance between start and
current exceeds `MIN_SELECTION_DISTANCE` (= 10), and otherwise `Cancelled`
with both endpoints reset to `none`. -/
theorem drag_end_threshold (response : DragResponse) (st en : Pos2)
    (h1 : response.drag_started = false) (h2 : response.dragged = false)
    (h3 : response.drag_stopped = true) :
    (is_valid_selection st en = true ↔
      ((MIN_SELECTION_DISTANCE : ℚ) : ℝ) <
        Real.sqrt (((en.x - st.x) ^ 2 + (en.y - st.y) ^ 2 : ℚ) : ℝ)) ∧
    (is_valid_selection st en = true →
      process_drag_event response ⟨some st, some en⟩ false =
        (SelectionEvent.Completed, ⟨some st, some en⟩)) ∧
    (is_valid_selection st en = false →
      process_drag_event response ⟨some st, some en⟩ false =
        (SelectionEvent.Cancelled, ⟨none, none⟩)) := by
  refine ⟨is_valid_selection_iff_dist st en, ?_, ?_⟩ <;>
    · intro hv
      simp [process_drag_event, h1, h2, h3, hv]

/-- Witness for `drag_end_threshold`: the drag from `(0,0)` to `(9,12)`
(distance 15) completes; the drag from `(0,0)` to `(3,4)` (distance 5) is
cancelled and the geometry discarded. -/
theorem drag_end_threshold_witness :
    process_drag_event ⟨false, false, true, none⟩ ⟨some ⟨0, 0⟩, some ⟨9, 12⟩⟩ false =
      (SelectionEvent.Completed, ⟨some ⟨0, 0⟩, some ⟨9, 12⟩⟩) ∧
    process_drag_event ⟨false, false, true, none⟩ ⟨some ⟨0, 0⟩, some ⟨3, 4⟩⟩ false =
      (SelectionEvent.Cancelled, ⟨none, none⟩) :=
  ⟨(drag_end_threshold ⟨false, false, true, none⟩ ⟨0, 0⟩ ⟨9, 12⟩ rfl rfl rfl).2.1
      (by with_unfolding_all decide),
   (drag_end_threshold ⟨false, false, true, none⟩ ⟨0, 0⟩ ⟨3, 4⟩ rfl rfl rfl).2.2
      (by with_unfolding_all decide)⟩

/-! ### Reset on new drag (C8) -/

lemma responseOrError_step (s : UiState) (e : StreamEvent)
    (h : s.isResponseOrError = true) :
    (process_stream_event s e).isResponseOrError = true := by
  cases e <;> cases s <;> simp_all [process_stream_event, UiState.isResponseOrError]

lemma responseOrError_drain (events : List StreamEvent) (s : UiState)
    (h : s.isResponseOrError = true) :
    (process_stream_events s events).isResponseOrError = true := by
  induction events generalizing s with
  | nil => exact h
  | cons e events ih => exact ih _ (responseOrError_step s e h)

lemma responseOrError_not_loading (s : UiState) (h : s.isResponseOrError = true) :
    s.isLoading = false := by
  cases s <;> simp_all [UiState.isResponseOrError, UiState.isLoading]

/-- C8: if a drag starts while the presentation state is `Response`
(Streaming) or `Error`, then — whatever events were still pending on the bus
and are drained first in the same frame — the frame leaves the state `Idle`,
the prompt text cleared, the finalized flag cleared, and both selection
endpoints at the pointer position. -/
theorem drag_start_resets_presentation (t : ToolState) (pending : List StreamEvent)
    (response : DragResponse) (p : Pos2)
    (hstate : t.state.isResponseOrError = true)
    (hdrag : response.drag_started = true)
    (hpos : response.interact_pointer_pos = some p) :
    (frame_update t pending response).state = UiState.Idle ∧
    (frame_update t pending response).chat_input = "" ∧
    (frame_update t pending response).is_selection_finalized = false ∧
    (frame_update t pending response).selection_start = some p ∧
    (frame_update t pending response).current_pos = some p := by
  have h1 : (process_stream_events t.state pending).isResponseOrError = true :=
    responseOrError_drain pending t.state hstate
  have h2 := responseOrError_not_loading _ h1
  simp [frame_update, handle_selection_input, process_drag_event, hdrag, hpos, h1, h2]

/-- Witness for `drag_start_resets_presentation`: a drag starting at `(5,6)`
while an `Error` is displayed and a stale chunk is still pending. -/
theorem drag_start_resets_presentation_witness :
    (frame_update ⟨none, none, true, "old prompt", UiState.Error "boom"⟩
        [StreamEvent.Chunk "late"] ⟨true, false, false, some ⟨5, 6⟩⟩).state =
      UiState.Idle ∧
    (frame_update ⟨none, none, true, "old prompt", UiState.Error "boom"⟩
        [StreamEvent.Chunk "late"] ⟨true, false, false, some ⟨5, 6⟩⟩).chat_input = "" ∧
    (frame_update ⟨none, none, true, "old prompt", UiState.Error "boom"⟩
        [StreamEvent.Chunk "late"] ⟨true, false, false, some ⟨5, 6⟩⟩).is_selection_finalized
      = false ∧
    (frame_update ⟨none, none, true, "old prompt", UiState.Error "boom"⟩
        [StreamEvent.Chunk "late"] ⟨true, false, false, some ⟨5, 6⟩⟩).selection_start =
      some ⟨5, 6⟩ ∧
    (frame_update ⟨none, none, true, "old prompt", UiState.Error "boom"⟩
        [StreamEvent.Chunk "late"] ⟨true, false, false, some ⟨5, 6⟩⟩).current_pos =
      some ⟨5, 6⟩ :=
  drag_start_resets_presentation ⟨none, none, true, "old prompt", UiState.Error "boom"⟩
    [StreamEvent.Chunk "late"] ⟨true, false, false, some ⟨5, 6⟩⟩ ⟨5, 6⟩
    (by decide) rfl rfl

/-! ### Best-effort settings save on submit (C9) -/

/-- C9: for every outcome of the settings save, `submit_request` performs the
save attempt first, then (with at most a log-warning action in between) sets
the state to an empty `Response` (Streaming) and spawns the worker — a save
failure never blocks or aborts the submission. -/
theorem submit_save_best_effort (saveResult : Except String Unit) :
    ∃ logs : List SubmitAction,
      submit_request saveResult =
        (UiState.Response "" "",
          SubmitAction.saveSettings :: (logs ++ [SubmitAction.spawnWorker])) ∧
      ∀ a ∈ logs, ∃ m, a = SubmitAction.logWarning m := by
  cases saveResult with
  | ok u =>
      refine ⟨[], rfl, ?_⟩
      intro a ha
      simp at ha
  | error e =>
      refine ⟨[SubmitAction.logWarning ("Warning: Failed to save settings: " ++ e)], rfl, ?_⟩
      intro a ha
      simp at ha
      exact ⟨_, ha⟩

/-- Witness for `submit_save_best_effort`: a failing save still submits. -/
theorem submit_save_best_effort_witness :
    ∃ logs : List SubmitAction,
      submit_request (Except.error "disk full") =
        (UiState.Response "" "",
          SubmitAction.saveSettings :: (logs ++ [SubmitAction.spawnWorker])) ∧
      ∀ a ∈ logs, ∃ m, a = SubmitAction.logWarning m :=
  submit_save_best_effort (Except.error "disk full")

/-! ### Worker failure behaviour (C2) -/

/-- C2 counterexample: a mid-stream chunk error does NOT stop the worker.
With one `Err` stream item followed by one `Ok` item, the worker sends the
`Error` event, then the later chunk, then `Done` — contradicting "emits
exactly one Failed/Error event and then stops emitting". -/
theorem worker_continues_after_stream_error_cex :
    worker_events (.ok ()) (.ok "img") (.ok ()) (.ok ())
        (.ok [.error "connection reset", .ok [GeminiStreamEvent.Text "more"]]) =
      [StreamEvent.Error "Stream error: connection reset", StreamEvent.Chunk "more",
        StreamEvent.Done] ∧
    [StreamEvent.Error "Stream error: connection reset", StreamEvent.Chunk "more",
        StreamEvent.Done] ≠ [StreamEvent.Error "Stream error: connection reset"] := by
  exact ⟨by decide, by decide⟩

/-- C2 amended: every failure before the stream is obtained (runtime
construction, image processing, configuration, client construction,
stream connect) makes the worker emit exactly one `Error` event and stop,
with no retry; a mid-stream chunk error emits an `Error` event but the worker
continues with the remaining stream items — possibly emitting further
`Chunk`/`Thought`/`Error` events — and emits `Done` at stream exhaustion. -/
theorem worker_failure_emission :
    (∀ e img cfg client stream, worker_events (.error e) img cfg client stream =
      [StreamEvent.Error ("Failed to create async runtime: " ++ e)]) ∧
    (∀ e cfg client stream, worker_events (.ok ()) (.error e) cfg client stream =
      [StreamEvent.Error ("Image processing failed: " ++ e)]) ∧
    (∀ b e client stream, worker_events (.ok ()) (.ok b) (.error e) client stream =
      [StreamEvent.Error ("Configuration error: " ++ e)]) ∧
    (∀ b e stream, worker_events (.ok ()) (.ok b) (.ok ()) (.error e) stream =
      [StreamEvent.Error ("Client initialization failed: " ++ e)]) ∧
    (∀ b e, worker_events (.ok ()) (.ok b) (.ok ()) (.ok ()) (.error e) =
      [StreamEvent.Error ("Gemini API error: " ++ e)]) ∧
    (∀ b pre e post,
      worker_events (.ok ()) (.ok b) (.ok ()) (.ok ()) (.ok (pre ++ .error e :: post)) =
        pre.flatMap streamItemEvents ++
          StreamEvent.Error ("Stream error: " ++ e) ::
            (post.flatMap streamItemEvents ++ [StreamEvent.Done])) := by
  refine ⟨fun e img cfg client stream => rfl, fun e cfg client stream => rfl,
    fun b e client stream => rfl, fun b e stream => rfl, fun b e => rfl, ?_⟩
  intro b pre e post
  simp [worker_events, streamItemEvents]

/-! ### Coordinate mapper (C4, C5, C6) -/

/-- C4: the mapper computes `scale_x = image.width / ui_size.width` and
`scale_y = image.height / ui_size.height` independently (both equal 2 for a
3840×2160 image over a 1920×1080 UI), and maps the UI rectangle with corners
`(100,100)` and `(200,150)` to the pixel rectangle from `(200,200)` to
`(400,300)`.  Determinism and purity hold by construction: the mapper is a
function of its arguments alone. -/
theorem coordinate_mapper_example :
    scaleX 3840 ⟨1920, 1080⟩ = 2 ∧ scaleY 2160 ⟨1920, 1080⟩ = 2 ∧
    ∃ r : PixelRect,
      process_selection_rect 3840 2160 ⟨⟨100, 100⟩, ⟨200, 150⟩⟩ ⟨1920, 1080⟩ =
        .ok r ∧
      r.x = 200 ∧ r.y = 200 ∧ r.x + r.width = 400 ∧ r.y + r.height = 300 := by
  refine ⟨by with_unfolding_all rfl, by with_unfolding_all rfl,
    ⟨200, 200, 200, 100⟩, by with_unfolding_all rfl, rfl, rfl, rfl, rfl⟩

lemma clamp_le (W px rw : ℕ) (hlt : px + rw < 2 ^ 32)
    (hnz : (if (px + rw) % 2 ^ 32 > W then W - px else rw) ≠ 0) :
    px + (if (px + rw) % 2 ^ 32 > W then W - px else rw) ≤ W := by
  rw [Nat.mod_eq_of_lt hlt] at hnz ⊢
  split_ifs at hnz ⊢ with h
  · have hpx : px ≤ W := by
      by_contra hc
      push_neg at hc
      exact hnz (Nat.sub_eq_zero_of_le (le_of_lt hc))
    omega
  · omega

/-- C5 amended: whenever the mapper succeeds AND the scaled position plus the
scaled extent does not overflow `u32` on either axis (`x + width < 2^32`,
`y + height < 2^32` before the clamp comparison), the produced rectangle is
in bounds: `x + width ≤ image.width` and `y + height ≤ image.height` (the
coordinates are nonnegative by type).  Without the no-overflow proviso the
bound fails — see the counterexample `clamping_overflow_cex`, where the `u32`
sum wraps past the clamp comparison. -/
theorem clamping_bounds_no_overflow (imgW imgH : ℕ) (selection : Rect) (ui_size : Vec2)
    (r : PixelRect)
    (hw : pixelX imgW selection ui_size + rawWidth imgW selection ui_size < 2 ^ 32)
    (hh : pixelY imgH selection ui_size + rawHeight imgH selection ui_size < 2 ^ 32)
    (hok : process_selection_rect imgW imgH selection ui_size = .ok r) :
    r.x + r.width ≤ imgW ∧ r.y + r.height ≤ imgH := by
  unfold process_selection_rect at hok
  by_cases hzero : clampedWidth imgW selection ui_size = 0 ∨
      clampedHeight imgH selection ui_size = 0
  · rw [if_pos hzero] at hok
    exact absurd hok (by simp)
  · rw [if_neg hzero] at hok
    push_neg at hzero
    obtain ⟨hw0, hh0⟩ := hzero
    have hr : r = ⟨pixelX imgW selection ui_size, pixelY imgH selection ui_size,
        clampedWidth imgW selection ui_size, clampedHeight imgH selection ui_size⟩ := by
      injection hok with h
      exact h.symm
    rw [hr]
    constructor
    · have h := clamp_le imgW (pixelX imgW selection ui_size)
        (rawWidth imgW selection ui_size) hw (by unfold clampedWidth at hw0; exact hw0)
      unfold clampedWidth
      exact h
    · have h := clamp_le imgH (pixelY imgH selection ui_size)
        (rawHeight imgH selection ui_size) hh (by unfold clampedHeight at hh0; exact hh0)
      unfold clampedHeight
      exact h

/-- Witness for `clamping_bounds_no_overflow`: the overflowing UI selection
`(1900,1000)-(2000,1100)` against UI size 1920×1080 and image size 3840×2160
is clamped to the in-bounds rectangle `(3800,2000)` with size `40×160`. -/
theorem clamping_bounds_no_overflow_witness :
    process_selection_rect 3840 2160 ⟨⟨1900, 1000⟩, ⟨2000, 1100⟩⟩ ⟨1920, 1080⟩ =
      .ok ⟨3800, 2000, 40, 160⟩ ∧ 3800 + 40 ≤ 3840 ∧ 2000 + 160 ≤ 2160 :=
  ⟨by with_unfolding_all rfl,
   clamping_bounds_no_overflow 3840 2160 ⟨⟨1900, 1000⟩, ⟨2000, 1100⟩⟩ ⟨1920, 1080⟩
     ⟨3800, 2000, 40, 160⟩ (by with_unfolding_all decide) (by with_unfolding_all decide)
     (by with_unfolding_all rfl)⟩

/-- C5 counterexample: a selection whose scaled left edge saturates the `u32`
cast (UI `x = 2^31` at scale 2) makes the `u32` sum `x + width` wrap past the
clamp comparison, so the mapper succeeds with `x + width = 4294967807 > 3840`
— the claimed bound `x + width ≤ image.width` does not hold for every
selection.  (In a debug build the same input panics on the `u32` overflow
instead, so "never panics" fails there too.) -/
theorem clamping_overflow_cex :
    process_selection_rect 3840 2160 ⟨⟨2147483648, 0⟩, ⟨2147483904, 10⟩⟩ ⟨1920, 1080⟩ =
      .ok ⟨4294967295, 0, 512, 20⟩ ∧ ¬(4294967295 + 512 ≤ 3840) :=
  ⟨by with_unfolding_all rfl, by decide⟩

/-- C6: the pipeline fails with `EmptySelection` iff the clamped width or
height is zero, whatever the encoder does; `EmptySelection` is the mapping
stage's only error; and a degenerate selection short-circuits: the result
does not depend on the encoder at all. -/
theorem empty_selection_iff_degenerate (imgW imgH : ℕ) (selection : Rect) (ui_size : Vec2) :
    (∀ encode, process_selection imgW imgH selection ui_size encode =
        .error AppError.EmptySelection ↔
      (clampedWidth imgW selection ui_size = 0 ∨
        clampedHeight imgH selection ui_size = 0)) ∧
    (∀ e, process_selection_rect imgW imgH selection ui_size = .error e →
      e = AppError.EmptySelection) ∧
    ((clampedWidth imgW selection ui_size = 0 ∨ clampedHeight imgH selection ui_size = 0) →
      ∀ encode1 encode2, process_selection imgW imgH selection ui_size encode1 =
        process_selection imgW imgH selection ui_size encode2) := by
  by_cases hzero : clampedWidth imgW selection ui_size = 0 ∨
      clampedHeight imgH selection ui_size = 0
  · refine ⟨fun encode => ?_, fun e he => ?_, fun _ encode1 encode2 => ?_⟩
    · simp [process_selection, process_selection_rect, if_pos hzero, hzero]
    · unfold process_selection_rect at he
      rw [if_pos hzero] at he
      injection he with h
      exact h.symm
    · simp [process_selection, process_selection_rect, if_pos hzero]
  · refine ⟨fun encode => ?_, fun e he => ?_, fun h _ _ => absurd h hzero⟩
    · simp only [process_selection, process_selection_rect, if_neg hzero]
      cases h : encode ⟨pixelX imgW selection ui_size, pixelY imgH selection ui_size,
          clampedWidth imgW selection ui_size, clampedHeight imgH selection ui_size⟩ with
      | error msg => simp [hzero]
      | ok s => simp [hzero]
    · unfold process_selection_rect at he
      rw [if_neg hzero] at he
      exact absurd he (by simp)

/-- Witness for `empty_selection_iff_degenerate`: the zero-width selection
`(100,100)-(100,200)` yields `EmptySelection` before any encoding. -/
theorem empty_selection_iff_degenerate_witness :
    process_selection 3840 2160 ⟨⟨100, 100⟩, ⟨100, 200⟩⟩ ⟨1920, 1080⟩
        (fun _ => .ok "jpeg") = .error AppError.EmptySelection :=
  ((empty_selection_iff_degenerate 3840 2160 ⟨⟨100, 100⟩, ⟨100, 200⟩⟩ ⟨1920, 1080⟩).1
      (fun _ => .ok "jpeg")).mpr (Or.inl (by with_unfolding_all rfl))

end AiShot
